import Mathlib

set_option exponentiation.threshold 4000

set_option maxRecDepth 2048

/-
Shallow embedding of src/validate_yolo_labels.py.

Python strings are modelled as lists of characters (`Str`), Python `int` as
`Int`, and Python `float` as `PyFloat`: either a finite value, positive
infinity, negative infinity, or NaN.  Finite values are fractions (`Frac`,
interpreted into `ℚ` by `Frac.toRat`) with a positive denominator.  Parsing
a decimal literal rounds its value to the nearest binary64 — round half to
even, underflow to zero, overflow to infinity — exactly as CPython's
`float(str)` does, so every parsed finite value is a dyadic that a binary64
holds exactly.  The validator's subsequent +, -, /2 operations on those
dyadics are modelled exactly, with IEEE special-value behaviour (NaN
compares false to everything and propagates through arithmetic); on the
values reaching the edge checks these operations agree with binary64
evaluation up to the final rounding, which cannot move an in-range exact
edge out of [0, 1] because rounding to nearest is monotone and 0 and 1 are
representable.
-/

/-- Python `str` is modelled as a list of characters. -/
abbrev Str := List Char

/-- The ASCII whitespace characters recognised by Python's `str.strip` and
`str.split` (Python also treats some further Unicode code points as
whitespace; they never occur in the inputs considered here). -/
def isSpace (c : Char) : Bool :=
  c == ' ' || c == '\t' || c == '\n' || c == '\r' || c == '\x0b' || c == '\x0c'

/-- Python `str.strip()`: remove leading and trailing whitespace. -/
def pyStrip (cs : Str) : Str :=
  ((cs.dropWhile isSpace).reverse.dropWhile isSpace).reverse

/-- Helper for `pySplit`: accumulates the current word (reversed) while
scanning the character list. -/
def wordsAux : Str → Str → List Str
  | [], acc => if acc.isEmpty then [] else [acc.reverse]
  | c :: cs, acc =>
    if isSpace c then
      if acc.isEmpty then wordsAux cs [] else acc.reverse :: wordsAux cs []
    else wordsAux cs (c :: acc)

/-- Python `str.split()` with no separator: split on runs of whitespace,
discarding empty words. -/
def pySplit (cs : Str) : List Str :=
  wordsAux cs []

/-- Numeric value of a list of decimal digit characters. -/
def digitsVal (cs : Str) : Nat :=
  cs.foldl (fun a c => a * 10 + (c.toNat - 48)) 0

/-- Python `int(s)` on a whitespace-free token: an optional sign followed by
at least one decimal digit.  (Python additionally allows underscore digit
separators and non-ASCII decimal digits; those never occur here.) -/
def parseInt (cs : Str) : Option Int :=
  match cs with
  | '+' :: rest =>
    if !rest.isEmpty && rest.all Char.isDigit then some (digitsVal rest) else none
  | '-' :: rest =>
    if !rest.isEmpty && rest.all Char.isDigit then some (-(digitsVal rest : Int)) else none
  | rest =>
    if !rest.isEmpty && rest.all Char.isDigit then some (digitsVal rest) else none

/-- An exact finite real value, kept as an unreduced fraction.  Every `Frac`
built by the parser or by the validator's arithmetic has a positive
denominator. -/
structure Frac where
  num : Int
  den : Nat
deriving DecidableEq

/-- The rational value of a fraction. -/
def Frac.toRat (a : Frac) : ℚ :=
  (a.num : ℚ) / (a.den : ℚ)

/-- Strict comparison by cross-multiplication (faithful to `<` on values
whenever both denominators are positive). -/
def Frac.blt (a b : Frac) : Bool :=
  decide (a.num * (b.den : Int) < b.num * (a.den : Int))

/-- Non-strict comparison by cross-multiplication (faithful to `≤` on values
whenever both denominators are positive). -/
def Frac.ble (a b : Frac) : Bool :=
  decide (a.num * (b.den : Int) ≤ b.num * (a.den : Int))

/-- Exact addition of fractions. -/
def Frac.add (a b : Frac) : Frac :=
  ⟨a.num * (b.den : Int) + b.num * (a.den : Int), a.den * b.den⟩

/-- Exact negation of a fraction. -/
def Frac.neg (a : Frac) : Frac :=
  ⟨-a.num, a.den⟩

/-- Exact halving of a fraction (`x / 2` in the source). -/
def Frac.half (a : Frac) : Frac :=
  ⟨a.num, a.den * 2⟩

/-- A Python `float` value: a finite value (kept exact), an infinity, or
NaN. -/
inductive PyFloat where
  | finite (f : Frac)
  | inf
  | neginf
  | nan
deriving DecidableEq

/-- `math.isnan`. -/
def PyFloat.isNan : PyFloat → Bool
  | .nan => true
  | _ => false

/-- `math.isinf`. -/
def PyFloat.isInf : PyFloat → Bool
  | .inf => true
  | .neginf => true
  | _ => false

/-- IEEE-style strict comparison `a < b`: false whenever either side is
NaN. -/
def PyFloat.blt : PyFloat → PyFloat → Bool
  | .nan, _ => false
  | _, .nan => false
  | .finite a, .finite b => a.blt b
  | .finite _, .inf => true
  | .finite _, .neginf => false
  | .neginf, .neginf => false
  | .neginf, _ => true
  | .inf, _ => false

/-- IEEE-style comparison `a <= b`: false whenever either side is NaN. -/
def PyFloat.ble : PyFloat → PyFloat → Bool
  | .nan, _ => false
  | _, .nan => false
  | .finite a, .finite b => a.ble b
  | .finite _, .inf => true
  | .finite _, .neginf => false
  | .inf, .inf => true
  | .inf, _ => false
  | .neginf, _ => true

/-- IEEE-style addition with special-value propagation. -/
def PyFloat.add : PyFloat → PyFloat → PyFloat
  | .nan, _ => .nan
  | _, .nan => .nan
  | .finite a, .finite b => .finite (a.add b)
  | .finite _, .inf => .inf
  | .finite _, .neginf => .neginf
  | .inf, .inf => .inf
  | .inf, .finite _ => .inf
  | .inf, .neginf => .nan
  | .neginf, .neginf => .neginf
  | .neginf, .finite _ => .neginf
  | .neginf, .inf => .nan

/-- IEEE-style negation. -/
def PyFloat.neg : PyFloat → PyFloat
  | .finite a => .finite a.neg
  | .inf => .neginf
  | .neginf => .inf
  | .nan => .nan

/-- IEEE-style subtraction. -/
def PyFloat.sub (a b : PyFloat) : PyFloat :=
  a.add b.neg

/-- Division by two (exact; `x / 2` in the source). -/
def PyFloat.half : PyFloat → PyFloat
  | .finite a => .finite a.half
  | .inf => .inf
  | .neginf => .neginf
  | .nan => .nan

/-- The float constant 0. -/
def pfZero : PyFloat := .finite ⟨0, 1⟩

/-- The float constant 1. -/
def pfOne : PyFloat := .finite ⟨1, 1⟩

/-- Case-insensitive comparison of a token against an ASCII keyword. -/
def lowerEq (cs : Str) (kw : Str) : Bool :=
  cs.map Char.toLower == kw

/-- Number of binary digits of `n` for `n < 2^32` (that is, ⌊log₂ n⌋ + 1 for
n ≥ 1, and 0 for 0), by a flat scan of the 32 candidate positions. -/
def bitLenSmall (n : Nat) : Nat :=
  (List.range 32).foldl (fun acc k => if 2 ^ k ≤ n then k + 1 else acc) 0

/-- Number of binary digits of `n`, processed 32 bits per step so that the
recursion depth stays proportional to the bit count divided by 32; the fuel
(`n` itself more than suffices) makes the recursion structural. -/
def bitLenAux : Nat → Nat → Nat
  | 0, _ => 0
  | fuel + 1, n =>
    if n < 4294967296 then bitLenSmall n else bitLenAux fuel (n / 4294967296) + 32

/-- Number of binary digits of `n`. -/
def natBits (n : Nat) : Nat :=
  bitLenAux n n

/-- Round `p / q` (with `q > 0`) to the nearest integer, ties to even. -/
def roundHalfEven (p q : Nat) : Nat :=
  let quot := p / q
  let rem := p % q
  if 2 * rem < q then quot
  else if q < 2 * rem then quot + 1
  else if quot % 2 = 0 then quot else quot + 1

/-- Round `(a / b) / 2 ^ e` (with `b > 0`) to the nearest integer, ties to
even. -/
def roundDiv (a b : Nat) (e : Int) : Nat :=
  if 0 ≤ e then roundHalfEven a (b * 2 ^ e.toNat)
  else roundHalfEven (a * 2 ^ (-e).toNat) b

/-- The normal binary64 significand and exponent for the positive rational
`a / b`: a pair `(m, e)` with `m` the correctly rounded value of
`(a / b) / 2 ^ e` and `2 ^ 52 ≤ m < 2 ^ 53`.  The initial scale estimate
from the bit lengths can be off by one and rounding can carry into an extra
bit, so the scale is corrected at most twice, re-rounding the exact quotient
at the final scale each time. -/
def normRound (a b : Nat) : Nat × Int :=
  let e1 : Int := (natBits a : Int) - (natBits b : Int) - 53
  let m1 := roundDiv a b e1
  let p2 := if m1 < 2 ^ 53 then (m1, e1) else (roundDiv a b (e1 + 1), e1 + 1)
  if p2.1 < 2 ^ 53 then p2 else (roundDiv a b (p2.2 + 1), p2.2 + 1)

/-- The fraction `sgn * m * 2 ^ e`. -/
def dyadic (sgn : Int) (m : Nat) (e : Int) : Frac :=
  if 0 ≤ e then ⟨sgn * (m : Int) * ((2 : Nat) ^ e.toNat : Nat), 1⟩
  else ⟨sgn * (m : Int), (2 : Nat) ^ (-e).toNat⟩

/-- The binary64 value nearest to `sgn * (a / b)` (with `b > 0`), ties to
even, as CPython's correctly-rounded `float(str)` produces it: zero for a
zero or underflowing magnitude, a signed infinity when the rounded magnitude
reaches 2^1024, a subnormal multiple of 2^-1074 for magnitudes below
2^-1022, and otherwise the normal value `m * 2^e` with `2^52 ≤ m < 2^53`. -/
def floatOfPos (sgn : Int) (a b : Nat) : PyFloat :=
  if a = 0 then .finite ⟨0, 1⟩
  else
    let me := normRound a b
    if me.2 < -1074 then
      let m := roundDiv a b (-1074)
      if m = 0 then .finite ⟨0, 1⟩ else .finite (dyadic sgn m (-1074))
    else if 971 < me.2 then (if 0 ≤ sgn then .inf else .neginf)
    else .finite (dyadic sgn me.1 me.2)

/-- The binary64 value of a parsed decimal literal — sign, mantissa digits,
number of digits after the point, and decimal exponent, denoting the exact
rational `sgn * mant * 10 ^ (ex - fracLen)` — rounded to the nearest
binary64 (with underflow to zero and overflow to infinity), as CPython's
`float()` computes it. -/
def decValue (sgn : Int) (mant : Nat) (fracLen : Nat) (ex : Int) : PyFloat :=
  let p : Int := ex - (fracLen : Int)
  if 0 ≤ p then floatOfPos sgn (mant * 10 ^ p.toNat) 1
  else floatOfPos sgn mant (10 ^ (-p).toNat)

/-- The decimal-literal part of Python `float(s)` parsing, after the sign has
been removed: `digits [. digits] [("e"|"E") [sign] digits]`, where the
mantissa must contain at least one digit; the literal's value is rounded to
binary64 by `decValue`. -/
def parseDecimal (sgn : Int) (cs : Str) : Option PyFloat :=
  let mant := cs.takeWhile (fun c => c != 'e' && c != 'E')
  let erest := cs.dropWhile (fun c => c != 'e' && c != 'E')
  let expVal :=
    match erest with
    | [] => some (0 : Int)
    | _ :: et =>
      match et with
      | '+' :: ed =>
        if !ed.isEmpty && ed.all Char.isDigit then some ((digitsVal ed : Int)) else none
      | '-' :: ed =>
        if !ed.isEmpty && ed.all Char.isDigit then some (-(digitsVal ed : Int)) else none
      | ed =>
        if !ed.isEmpty && ed.all Char.isDigit then some ((digitsVal ed : Int)) else none
  match expVal with
  | none => none
  | some ex =>
    let ip := mant.takeWhile (fun c => c != '.')
    let rest := mant.dropWhile (fun c => c != '.')
    match rest with
    | [] =>
      if !ip.isEmpty && ip.all Char.isDigit then
        some (decValue sgn (digitsVal ip) 0 ex)
      else none
    | _ :: fp =>
      if ip.all Char.isDigit && fp.all Char.isDigit && (!ip.isEmpty || !fp.isEmpty) then
        some (decValue sgn (digitsVal (ip ++ fp)) fp.length ex)
      else none

/-- Python `float(s)` on an unsigned whitespace-free token: the keywords
`inf`, `infinity` and `nan` (case-insensitive) or a decimal literal. -/
def parseUnsigned (sgn : Int) (cs : Str) : Option PyFloat :=
  if lowerEq cs ("inf".toList) || lowerEq cs ("infinity".toList) then
    some (if 0 ≤ sgn then .inf else .neginf)
  else if lowerEq cs ("nan".toList) then
    some .nan
  else
    parseDecimal sgn cs

/-- Python `float(s)` on a whitespace-free token. -/
def parseFloat (cs : Str) : Option PyFloat :=
  match cs with
  | '+' :: rest => parseUnsigned 1 rest
  | '-' :: rest => parseUnsigned (-1) rest
  | rest => parseUnsigned 1 rest

/-- The coordinate-name strings `['center_x', 'center_y', 'width', 'height']`
used in the NaN/Infinity messages. -/
inductive CoordName where
  | center_x
  | center_y
  | width
  | height
deriving DecidableEq

/-- The reason of a finding: one constructor per `LabelValidationError`
construction site in the source, carrying exactly the values interpolated
into that site's message. -/
inductive Reason where
  | wrongCount (found : Nat)
  | classIdNotInt (token : Str)
  | classIdNegative (value : Int)
  | invalidNumeric (token : Str)
  | isNaN (c : CoordName)
  | isInfinity (c : CoordName)
  | widthNotPositive (value : PyFloat)
  | heightNotPositive (value : PyFloat)
  | centerXOutOfRange (value : PyFloat)
  | centerYOutOfRange (value : PyFloat)
  | exceedsLeft (x_min : PyFloat)
  | exceedsRight (x_max : PyFloat)
  | exceedsTop (y_min : PyFloat)
  | exceedsBottom (y_max : PyFloat)
  | encodingError
  | readError (msg : Str)
deriving DecidableEq

/-- `class LabelValidationError`. -/
structure LabelValidationError where
  filename : Str
  line_num : Nat
  line_content : Str
  reason : Reason
deriving DecidableEq

/-- `LabelValidationError.__init__`: the stored `line_content` is the given
line content with surrounding whitespace stripped. -/
def LabelValidationError.make (filename : Str) (line_num : Nat) (line_content : Str)
    (reason : Reason) : LabelValidationError :=
  ⟨filename, line_num, pyStrip line_content, reason⟩

/-- `validate_yolo_line`: validate a single YOLO label line.  A direct
translation of the source; the trailing `except Exception` handler of the
source is unreachable (no statement in the guarded block can raise once the
inner handlers are accounted for) and has no counterpart here. -/
def validate_yolo_line (line : Str) (line_num : Nat) (filename : Str) :
    Option LabelValidationError :=
  let line := pyStrip line
  if line.isEmpty then none
  else
    match pySplit line with
    | [class_id_str, center_x_str, center_y_str, width_str, height_str] =>
      match parseInt class_id_str with
      | none => some (.make filename line_num line (.classIdNotInt class_id_str))
      | some class_id =>
        if class_id < 0 then
          some (.make filename line_num line (.classIdNegative class_id))
        else
          match parseFloat center_x_str with
          | none => some (.make filename line_num line (.invalidNumeric center_x_str))
          | some center_x =>
            match parseFloat center_y_str with
            | none => some (.make filename line_num line (.invalidNumeric center_y_str))
            | some center_y =>
              match parseFloat width_str with
              | none => some (.make filename line_num line (.invalidNumeric width_str))
              | some width =>
                match parseFloat height_str with
                | none => some (.make filename line_num line (.invalidNumeric height_str))
                | some height =>
                  if center_x.isNan then
                    some (.make filename line_num line (.isNaN .center_x))
                  else if center_x.isInf then
                    some (.make filename line_num line (.isInfinity .center_x))
                  else if center_y.isNan then
                    some (.make filename line_num line (.isNaN .center_y))
                  else if center_y.isInf then
                    some (.make filename line_num line (.isInfinity .center_y))
                  else if width.isNan then
                    some (.make filename line_num line (.isNaN .width))
                  else if width.isInf then
                    some (.make filename line_num line (.isInfinity .width))
                  else if height.isNan then
                    some (.make filename line_num line (.isNaN .height))
                  else if height.isInf then
                    some (.make filename line_num line (.isInfinity .height))
                  else if width.ble pfZero then
                    some (.make filename line_num line (.widthNotPositive width))
                  else if height.ble pfZero then
                    some (.make filename line_num line (.heightNotPositive height))
                  else if center_x.blt pfZero || pfOne.blt center_x then
                    some (.make filename line_num line (.centerXOutOfRange center_x))
                  else if center_y.blt pfZero || pfOne.blt center_y then
                    some (.make filename line_num line (.centerYOutOfRange center_y))
                  else
                    let x_min := center_x.sub width.half
                    let x_max := center_x.add width.half
                    let y_min := center_y.sub height.half
                    let y_max := center_y.add height.half
                    if x_min.blt pfZero then
                      some (.make filename line_num line (.exceedsLeft x_min))
                    else if pfOne.blt x_max then
                      some (.make filename line_num line (.exceedsRight x_max))
                    else if y_min.blt pfZero then
                      some (.make filename line_num line (.exceedsTop y_min))
                    else if pfOne.blt y_max then
                      some (.make filename line_num line (.exceedsBottom y_max))
                    else
                      none
    | parts => some (.make filename line_num line (.wrongCount parts.length))

/-- The outcome of opening and reading one label file as UTF-8 text: either
the list of its lines as returned by `readlines()` (each line keeps its
trailing newline, except possibly the last), a `UnicodeDecodeError`, or any
other `Exception` with its message. -/
inductive ReadResult where
  | ok (lines : List Str)
  | unicodeDecodeError
  | otherError (msg : Str)
deriving DecidableEq

/-- `validate_label_file`: validate a single label file, given the outcome of
reading it.  The `filename` argument plays the role of `filepath.name`. -/
def validate_label_file (filename : Str) (r : ReadResult) : List LabelValidationError :=
  match r with
  | .ok lines =>
    if lines.isEmpty then []
    else
      (List.enumFrom 1 lines).filterMap
        (fun p => validate_yolo_line p.2 p.1 filename)
  | .unicodeDecodeError =>
    [.make filename 0 [] .encodingError]
  | .otherError msg =>
    [.make filename 0 [] (.readError msg)]

/-- One `labels/<split>` directory: its `.txt` files (basename and read
outcome), already filtered by the `*.txt` glob and sorted, as `scan_dataset`
enumerates them. -/
structure LabelDir where
  files : List (Str × ReadResult)
deriving DecidableEq

/-- The dataset as `scan_dataset` observes it: each of the two fixed splits
is either a present directory or absent. -/
structure Dataset where
  train : Option LabelDir
  val : Option LabelDir
deriving DecidableEq

/-- The triple returned by `scan_dataset`. -/
structure ScanResult where
  errors : List LabelValidationError
  total_files : Nat
  total_lines : Nat
deriving DecidableEq

/-- The per-file line-count statistic: `len([l for l in f if l.strip()])`,
the number of non-blank lines, for a file that reads successfully; a file
whose read fails contributes nothing (`except: pass`). -/
def countNonBlankLines : ReadResult → Nat
  | .ok lines => (lines.filter (fun l => !(pyStrip l).isEmpty)).length
  | _ => 0

/-- The body of the inner `for txt_file in txt_files` loop: count the file,
collect its findings, and (re-reading the file, which is assumed unchanged)
add its number of non-blank lines. -/
def processFile (acc : ScanResult) (f : Str × ReadResult) : ScanResult :=
  { errors := acc.errors ++ validate_label_file f.1 f.2
    total_files := acc.total_files + 1
    total_lines := acc.total_lines + countNonBlankLines f.2 }

/-- One iteration of the `for split in ['train', 'val']` loop: an absent
directory is skipped with a warning (and an empty directory with a notice);
otherwise every file is processed in order. -/
def processSplit (acc : ScanResult) (d : Option LabelDir) : ScanResult :=
  match d with
  | none => acc
  | some dir => dir.files.foldl processFile acc

/-- `scan_dataset`: scan all label files in `labels/train` and `labels/val`. -/
def scan_dataset (ds : Dataset) : ScanResult :=
  processSplit (processSplit ⟨[], 0, 0⟩ ds.train) ds.val

/-- `main`, reduced to its observable outcome: the process exit code, as a
function of whether the (configured) dataset root exists and of the dataset's
contents.  (Named `mainExitCode` because Lean reserves `main` for programs.) -/
def mainExitCode (root_exists : Bool) (ds : Dataset) : Nat :=
  if root_exists = false then 1
  else if (scan_dataset ds).errors.isEmpty then 0 else 1

/-
Spec-side description of the Line Validator, for the refinement claim about
the validation sequence: twelve independent checks, each returning the reason
it would report (or nothing if it passes or its prerequisites fail), tried in
the documented fixed order with the first violation winning.  Written from
the words of the spec (section 4.1), to be compared with
`validate_yolo_line`.
-/

/-- Spec-side: the five whitespace-separated tokens of a line, when there are
exactly five. -/
def tokens5 (line : Str) : Option (Str × Str × Str × Str × Str) :=
  match pySplit (pyStrip line) with
  | [a, b, c, d, e] => some (a, b, c, d, e)
  | _ => none

/-- Spec-side check 1: tokenize on whitespace; must yield exactly 5 tokens. -/
def chkTokenCount (line : Str) : Option Reason :=
  match pySplit (pyStrip line) with
  | [_, _, _, _, _] => none
  | parts => some (.wrongCount parts.length)

/-- Spec-side check 2: token 1 must parse as an integer ≥ 0. -/
def chkClassId (line : Str) : Option Reason :=
  match tokens5 line with
  | none => none
  | some (a, _, _, _, _) =>
    match parseInt a with
    | none => some (.classIdNotInt a)
    | some v => if v < 0 then some (.classIdNegative v) else none

/-- Spec-side check 3: tokens 2–5 must each parse as a real number; the first
unparsable token is reported. -/
def chkFloats (line : Str) : Option Reason :=
  match tokens5 line with
  | none => none
  | some (_, b, c, d, e) =>
    match parseFloat b with
    | none => some (.invalidNumeric b)
    | some _ =>
      match parseFloat c with
      | none => some (.invalidNumeric c)
      | some _ =>
        match parseFloat d with
        | none => some (.invalidNumeric d)
        | some _ =>
          match parseFloat e with
          | none => some (.invalidNumeric e)
          | some _ => none

/-- Spec-side: the four parsed coordinates, when all four parse. -/
def coords4 (line : Str) : Option (PyFloat × PyFloat × PyFloat × PyFloat) :=
  match tokens5 line with
  | none => none
  | some (_, b, c, d, e) =>
    match parseFloat b, parseFloat c, parseFloat d, parseFloat e with
    | some x, some y, some w, some h => some (x, y, w, h)
    | _, _, _, _ => none

/-- Spec-side check 4: none of the four values may be NaN or infinite,
checked value by value in order (NaN before infinity for each value),
naming the specific field. -/
def chkSpecial (line : Str) : Option Reason :=
  match coords4 line with
  | none => none
  | some (x, y, w, h) =>
    if x.isNan then some (.isNaN .center_x)
    else if x.isInf then some (.isInfinity .center_x)
    else if y.isNan then some (.isNaN .center_y)
    else if y.isInf then some (.isInfinity .center_y)
    else if w.isNan then some (.isNaN .width)
    else if w.isInf then some (.isInfinity .width)
    else if h.isNan then some (.isNaN .height)
    else if h.isInf then some (.isInfinity .height)
    else none

/-- Spec-side check 5: `width` must be strictly greater than 0. -/
def chkWidth (line : Str) : Option Reason :=
  match coords4 line with
  | none => none
  | some (_, _, w, _) => if w.ble pfZero then some (.widthNotPositive w) else none

/-- Spec-side check 6: `height` must be strictly greater than 0. -/
def chkHeight (line : Str) : Option Reason :=
  match coords4 line with
  | none => none
  | some (_, _, _, h) => if h.ble pfZero then some (.heightNotPositive h) else none

/-- Spec-side check 7: `center_x` must lie in [0, 1]. -/
def chkCenterX (line : Str) : Option Reason :=
  match coords4 line with
  | none => none
  | some (x, _, _, _) =>
    if x.blt pfZero || pfOne.blt x then some (.centerXOutOfRange x) else none

/-- Spec-side check 8: `center_y` must lie in [0, 1]. -/
def chkCenterY (line : Str) : Option Reason :=
  match coords4 line with
  | none => none
  | some (_, y, _, _) =>
    if y.blt pfZero || pfOne.blt y then some (.centerYOutOfRange y) else none

/-- Spec-side check 9: the derived left edge `x_min = center_x − width/2`
must be ≥ 0. -/
def chkXMin (line : Str) : Option Reason :=
  match coords4 line with
  | none => none
  | some (x, _, w, _) =>
    if (x.sub w.half).blt pfZero then some (.exceedsLeft (x.sub w.half)) else none

/-- Spec-side check 10: the derived right edge `x_max = center_x + width/2`
must be ≤ 1. -/
def chkXMax (line : Str) : Option Reason :=
  match coords4 line with
  | none => none
  | some (x, _, w, _) =>
    if pfOne.blt (x.add w.half) then some (.exceedsRight (x.add w.half)) else none

/-- Spec-side check 11: the derived top edge `y_min = center_y − height/2`
must be ≥ 0. -/
def chkYMin (line : Str) : Option Reason :=
  match coords4 line with
  | none => none
  | some (_, y, _, h) =>
    if (y.sub h.half).blt pfZero then some (.exceedsTop (y.sub h.half)) else none

/-- Spec-side check 12: the derived bottom edge `y_max = center_y + height/2`
must be ≤ 1. -/
def chkYMax (line : Str) : Option Reason :=
  match coords4 line with
  | none => none
  | some (_, y, _, h) =>
    if pfOne.blt (y.add h.half) then some (.exceedsBottom (y.add h.half)) else none

/-- Spec-side Line Validator verdict: a blank line is valid; otherwise the
first violated check in the documented fixed sequence produces the reason. -/
def specFirstViolation (line : Str) : Option Reason :=
  if (pyStrip line).isEmpty then none
  else
    [chkTokenCount line, chkClassId line, chkFloats line, chkSpecial line,
     chkWidth line, chkHeight line, chkCenterX line, chkCenterY line,
     chkXMin line, chkXMax line, chkYMin line, chkYMax line].findSome? id

/-- The Line Validator's verdict with the filename and line number abstracted
away: the same decision chain as `validate_yolo_line`, returning only the
reason.  Used to factor the proofs that the verdict depends only on the line
text. -/
def lineCore (line : Str) : Option Reason :=
  let line := pyStrip line
  if line.isEmpty then none
  else
    match pySplit line with
    | [class_id_str, center_x_str, center_y_str, width_str, height_str] =>
      match parseInt class_id_str with
      | none => some (.classIdNotInt class_id_str)
      | some class_id =>
        if class_id < 0 then
          some (.classIdNegative class_id)
        else
          match parseFloat center_x_str with
          | none => some (.invalidNumeric center_x_str)
          | some center_x =>
            match parseFloat center_y_str with
            | none => some (.invalidNumeric center_y_str)
            | some center_y =>
              match parseFloat width_str with
              | none => some (.invalidNumeric width_str)
              | some width =>
                match parseFloat height_str with
                | none => some (.invalidNumeric height_str)
                | some height =>
                  if center_x.isNan then some (.isNaN .center_x)
                  else if center_x.isInf then some (.isInfinity .center_x)
                  else if center_y.isNan then some (.isNaN .center_y)
                  else if center_y.isInf then some (.isInfinity .center_y)
                  else if width.isNan then some (.isNaN .width)
                  else if width.isInf then some (.isInfinity .width)
                  else if height.isNan then some (.isNaN .height)
                  else if height.isInf then some (.isInfinity .height)
                  else if width.ble pfZero then some (.widthNotPositive width)
                  else if height.ble pfZero then some (.heightNotPositive height)
                  else if center_x.blt pfZero || pfOne.blt center_x then
                    some (.centerXOutOfRange center_x)
                  else if center_y.blt pfZero || pfOne.blt center_y then
                    some (.centerYOutOfRange center_y)
                  else
                    let x_min := center_x.sub width.half
                    let x_max := center_x.add width.half
                    let y_min := center_y.sub height.half
                    let y_max := center_y.add height.half
                    if x_min.blt pfZero then some (.exceedsLeft x_min)
                    else if pfOne.blt x_max then some (.exceedsRight x_max)
                    else if y_min.blt pfZero then some (.exceedsTop y_min)
                    else if pfOne.blt y_max then some (.exceedsBottom y_max)
                    else none
    | parts => some (.wrongCount parts.length)

example :
    validate_yolo_line ("0 0.5 0.5 0.2 0.2".toList) 1 ("a.txt".toList) = none := by
  decide

example :
    (validate_yolo_line ("0 0.5 0.5 1.2 0.2".toList) 1 ("a.txt".toList)).map
      (fun e =>
        match e.reason with
        | Reason.exceedsLeft _ => true
        | _ => false) = some true := by
  decide

example : parseFloat ("0.5".toList) =
    some (.finite ⟨4503599627370496, 9007199254740992⟩) := by
  decide

example : parseFloat ("0.2".toList) =
    some (.finite ⟨7205759403792794, 36028797018963968⟩) := by
  decide

example : parseFloat ("1.2".toList) =
    some (.finite ⟨5404319552844595, 4503599627370496⟩) := by
  decide

example : parseFloat ("1e-999".toList) = some (.finite ⟨0, 1⟩) := by
  decide

example : parseFloat ("1e999".toList) = some .inf := by
  decide

example :
    (validate_yolo_line ("0 0.5 0.5 1e-999 0.5".toList) 1 ("a.txt".toList)).map
      (fun e => e.reason) = some (.widthNotPositive (.finite ⟨0, 1⟩)) := by
  decide

example :
    (validate_yolo_line ("0 0.5 0.5 0.2".toList) 3 ("a.txt".toList)).map
      (fun e => e.reason) = some (.wrongCount 4) := by
  decide

example :
    (validate_yolo_line ("0 nan 0.5 0.2 0.2".toList) 1 ("a.txt".toList)).map
      (fun e => e.reason) = some (.isNaN .center_x) := by
  decide

example :
    (validate_yolo_line ("-1 0.5 0.5 0.2 0.2".toList) 1 ("a.txt".toList)).map
      (fun e => e.reason) = some (.classIdNegative (-1)) := by
  decide

example :
    (validate_yolo_line ("0 0.5 0.5 0 0.2".toList) 1 ("a.txt".toList)).map
      (fun e => e.reason) = some (.widthNotPositive (.finite ⟨0, 1⟩)) := by
  decide

/-- The Line Validator instantiates its core verdict with the given filename
and line number: metadata threads through unchanged. -/
theorem validate_eq_core (line : Str) (n : Nat) (f : Str) :
    validate_yolo_line line n f =
      (lineCore line).map (fun r => LabelValidationError.make f n (pyStrip line) r) := by
  unfold validate_yolo_line lineCore
  dsimp only
  generalize LabelValidationError.make f n (pyStrip line) = mk
  generalize pySplit (pyStrip line) = parts
  by_cases hb : List.isEmpty (pyStrip line) = true
  · rw [if_pos hb, if_pos hb]
    rfl
  · rw [if_neg hb, if_neg hb]
    rcases parts with _ | ⟨a, _ | ⟨b, _ | ⟨c, _ | ⟨d, _ | ⟨e, _ | ⟨g, rest⟩⟩⟩⟩⟩⟩
    · rfl
    · rfl
    · rfl
    · rfl
    · rfl
    · dsimp only
      rcases hci : parseInt a with _ | ci
      · rfl
      · dsimp only
        by_cases hneg : ci < 0
        · simp only [if_pos hneg]
          rfl
        · simp only [if_neg hneg]
          rcases hx : parseFloat b with _ | x
          · rfl
          · dsimp only
            rcases hy : parseFloat c with _ | y
            · rfl
            · dsimp only
              rcases hw : parseFloat d with _ | w
              · rfl
              · dsimp only
                rcases hh : parseFloat e with _ | h
                · rfl
                · dsimp only
                  cases hxn : x.isNan
                  · cases hxi : x.isInf
                    · cases hyn : y.isNan
                      · cases hyi : y.isInf
                        · cases hwn : w.isNan
                          · cases hwi : w.isInf
                            · cases hhn : h.isNan
                              · cases hhi : h.isInf
                                · cases hwp : w.ble pfZero
                                  · cases hhp : h.ble pfZero
                                    · cases hxr : x.blt pfZero || pfOne.blt x
                                      · cases hyr : y.blt pfZero || pfOne.blt y
                                        · cases hx0 : (x.sub w.half).blt pfZero
                                          · cases hx1 : pfOne.blt (x.add w.half)
                                            · cases hy0 : (y.sub h.half).blt pfZero
                                              · cases hy1 : pfOne.blt (y.add h.half)
                                                · rfl
                                                · rfl
                                              · rfl
                                            · rfl
                                          · rfl
                                        · rfl
                                      · rfl
                                    · rfl
                                  · rfl
                                · rfl
                              · rfl
                            · rfl
                          · rfl
                        · rfl
                      · rfl
                    · rfl
                  · rfl
    · rfl

/-- The core verdict of the Line Validator agrees, on every line, with the
spec-side description: the first violated check of the fixed sequence. -/
theorem lineCore_eq_spec (line : Str) :
    lineCore line = specFirstViolation line := by
  unfold lineCore specFirstViolation chkTokenCount chkClassId chkFloats chkSpecial
    chkWidth chkHeight chkCenterX chkCenterY chkXMin chkXMax chkYMin chkYMax
    tokens5 coords4
  unfold tokens5
  dsimp only
  generalize pySplit (pyStrip line) = parts
  by_cases hb : List.isEmpty (pyStrip line) = true
  · rw [if_pos hb, if_pos hb]
  · rw [if_neg hb, if_neg hb]
    rcases parts with _ | ⟨a, _ | ⟨b, _ | ⟨c, _ | ⟨d, _ | ⟨e, _ | ⟨g, rest⟩⟩⟩⟩⟩⟩
    · rfl
    · rfl
    · rfl
    · rfl
    · rfl
    · dsimp only
      rcases hci : parseInt a with _ | ci
      · rfl
      · dsimp only
        by_cases hneg : ci < 0
        · simp only [if_pos hneg]
          rfl
        · simp only [if_neg hneg]
          rcases hx : parseFloat b with _ | x
          · rfl
          · dsimp only
            rcases hy : parseFloat c with _ | y
            · rfl
            · dsimp only
              rcases hw : parseFloat d with _ | w
              · rfl
              · dsimp only
                rcases hh : parseFloat e with _ | h
                · rfl
                · dsimp only
                  cases hxn : x.isNan
                  · cases hxi : x.isInf
                    · cases hyn : y.isNan
                      · cases hyi : y.isInf
                        · cases hwn : w.isNan
                          · cases hwi : w.isInf
                            · cases hhn : h.isNan
                              · cases hhi : h.isInf
                                · cases hwp : w.ble pfZero
                                  · cases hhp : h.ble pfZero
                                    · cases hxr : x.blt pfZero || pfOne.blt x
                                      · cases hyr : y.blt pfZero || pfOne.blt y
                                        · cases hx0 : (x.sub w.half).blt pfZero
                                          · cases hx1 : pfOne.blt (x.add w.half)
                                            · cases hy0 : (y.sub h.half).blt pfZero
                                              · cases hy1 : pfOne.blt (y.add h.half)
                                                · rfl
                                                · rfl
                                              · rfl
                                            · rfl
                                          · rfl
                                        · rfl
                                      · rfl
                                    · rfl
                                  · rfl
                                · rfl
                              · rfl
                            · rfl
                          · rfl
                        · rfl
                      · rfl
                    · rfl
                  · rfl
    · rfl

/-- `dropWhile` never returns a list whose head satisfies the predicate. -/
theorem dropWhile_head_false {p : Char → Bool} :
    ∀ (l : Str) (a : Char) (t : Str), l.dropWhile p = a :: t → p a = false := by
  intro l
  induction l with
  | nil => intro a t h; exact absurd h (by simp)
  | cons c cs ih =>
    intro a t h
    rw [List.dropWhile_cons] at h
    by_cases hc : p c = true
    · rw [if_pos hc] at h
      exact ih a t h
    · rw [if_neg hc] at h
      cases h
      exact Bool.not_eq_true _ ▸ Bool.of_not_eq_true hc

/-- `dropWhile` is idempotent. -/
theorem dropWhile_idem (p : Char → Bool) (l : Str) :
    (l.dropWhile p).dropWhile p = l.dropWhile p := by
  rcases h : l.dropWhile p with _ | ⟨a, t⟩
  · simp
  · rw [List.dropWhile_cons, if_neg]
    simp [dropWhile_head_false l a t h]

/-- `dropWhile` returns a suffix: something prepended to it gives back the
list. -/
theorem dropWhile_exists_takeWhile (p : Char → Bool) (l : Str) :
    ∃ u, u ++ l.dropWhile p = l := by
  induction l with
  | nil => exact ⟨[], rfl⟩
  | cons c cs ih =>
    rw [List.dropWhile_cons]
    by_cases hc : p c = true
    · rw [if_pos hc]
      obtain ⟨u, hu⟩ := ih
      exact ⟨c :: u, by simp [hu]⟩
    · rw [if_neg hc]
      exact ⟨[], rfl⟩

/-- The head of `pyStrip l` does not satisfy `isSpace`, so stripping again
drops nothing from the front. -/
theorem dropWhile_pyStrip (l : Str) :
    (pyStrip l).dropWhile isSpace = pyStrip l := by
  rcases hs : pyStrip l with _ | ⟨a, t⟩
  · simp
  · -- `pyStrip l` is `(dropWhile isSpace (dropWhile isSpace l).reverse.reverse)`-free:
    -- it is a reversed suffix of `(l.dropWhile isSpace).reverse`, hence a prefix of
    -- `l.dropWhile isSpace`; a nonempty prefix shares its head, which fails `isSpace`.
    obtain ⟨u, hu⟩ := dropWhile_exists_takeWhile isSpace (l.dropWhile isSpace).reverse
    have hpre : pyStrip l ++ u.reverse = l.dropWhile isSpace := by
      unfold pyStrip
      calc ((l.dropWhile isSpace).reverse.dropWhile isSpace).reverse ++ u.reverse
          = (u ++ (l.dropWhile isSpace).reverse.dropWhile isSpace).reverse := by
            rw [List.reverse_append]
        _ = (l.dropWhile isSpace).reverse.reverse := by rw [hu]
        _ = l.dropWhile isSpace := List.reverse_reverse _
    rw [hs] at hpre
    have hhead : ∃ t2, l.dropWhile isSpace = a :: t2 := ⟨t ++ u.reverse, by simp [← hpre]⟩
    obtain ⟨t2, ht2⟩ := hhead
    have ha : isSpace a = false := dropWhile_head_false l a t2 ht2
    rw [List.dropWhile_cons, if_neg (by simp [ha])]

/-- Stripping is idempotent. -/
theorem pyStrip_idem (l : Str) : pyStrip (pyStrip l) = pyStrip l := by
  show (((pyStrip l).dropWhile isSpace).reverse.dropWhile isSpace).reverse = pyStrip l
  rw [dropWhile_pyStrip l]
  have h2 : (pyStrip l).reverse = ((l.dropWhile isSpace).reverse).dropWhile isSpace := by
    unfold pyStrip
    rw [List.reverse_reverse]
  rw [h2, dropWhile_idem, ← h2, List.reverse_reverse]

/-- A blank (or whitespace-only) line has no core verdict. -/
theorem lineCore_blank (line : Str) (h : pyStrip line = []) : lineCore line = none := by
  unfold lineCore
  rw [if_pos (by simp [h])]

/-- A line with a core verdict is not blank once stripped. -/
theorem lineCore_some_nonblank (line : Str) (r : Reason) (h : lineCore line = some r) :
    pyStrip line ≠ [] := by
  intro hb
  rw [lineCore_blank line hb] at h
  exact Option.noConfusion h

/-- `isNan` is false on finite values. -/
theorem PyFloat.isNan_finite (a : Frac) : (PyFloat.finite a).isNan = false := rfl

/-- `isInf` is false on finite values. -/
theorem PyFloat.isInf_finite (a : Frac) : (PyFloat.finite a).isInf = false := rfl

/-- `blt` on finite values is the fraction comparison. -/
theorem PyFloat.blt_finite (a b : Frac) :
    (PyFloat.finite a).blt (PyFloat.finite b) = a.blt b := rfl

/-- `ble` on finite values is the fraction comparison. -/
theorem PyFloat.ble_finite (a b : Frac) :
    (PyFloat.finite a).ble (PyFloat.finite b) = a.ble b := rfl

/-- `sub` on finite values is exact fraction subtraction. -/
theorem PyFloat.sub_finite (a b : Frac) :
    (PyFloat.finite a).sub (PyFloat.finite b) = PyFloat.finite (a.add b.neg) := rfl

/-- `add` on finite values is exact fraction addition. -/
theorem PyFloat.add_finite (a b : Frac) :
    (PyFloat.finite a).add (PyFloat.finite b) = PyFloat.finite (a.add b) := rfl

/-- `half` on finite values is exact fraction halving. -/
theorem PyFloat.half_finite (a : Frac) :
    (PyFloat.finite a).half = PyFloat.finite a.half := rfl

/-- The denominator of a sum. -/
theorem Frac.den_add (a b : Frac) : (a.add b).den = a.den * b.den := rfl

/-- The denominator of a negation. -/
theorem Frac.den_neg (a : Frac) : a.neg.den = a.den := rfl

/-- The denominator of a half. -/
theorem Frac.den_half (a : Frac) : a.half.den = a.den * 2 := rfl

/-- The value of the fraction 0/1. -/
theorem Frac.toRat_zero : (Frac.mk 0 1).toRat = 0 := by
  unfold Frac.toRat
  norm_num

/-- The value of the fraction 1/1. -/
theorem Frac.toRat_one : (Frac.mk 1 1).toRat = 1 := by
  unfold Frac.toRat
  norm_num

/-- `Frac.blt` decides the strict order of values, for positive
denominators. -/
theorem Frac.blt_eq_toRat (a b : Frac) (ha : 0 < a.den) (hb : 0 < b.den) :
    a.blt b = decide (a.toRat < b.toRat) := by
  have haQ : (0 : ℚ) < (a.den : ℚ) := by exact_mod_cast ha
  have hbQ : (0 : ℚ) < (b.den : ℚ) := by exact_mod_cast hb
  have : a.toRat < b.toRat ↔ a.num * (b.den : Int) < b.num * (a.den : Int) := by
    unfold Frac.toRat
    rw [div_lt_div_iff₀ haQ hbQ]
    exact_mod_cast Iff.rfl
  unfold Frac.blt
  simp only [this]

/-- `Frac.ble` decides the order of values, for positive denominators. -/
theorem Frac.ble_eq_toRat (a b : Frac) (ha : 0 < a.den) (hb : 0 < b.den) :
    a.ble b = decide (a.toRat ≤ b.toRat) := by
  have haQ : (0 : ℚ) < (a.den : ℚ) := by exact_mod_cast ha
  have hbQ : (0 : ℚ) < (b.den : ℚ) := by exact_mod_cast hb
  have : a.toRat ≤ b.toRat ↔ a.num * (b.den : Int) ≤ b.num * (a.den : Int) := by
    unfold Frac.toRat
    rw [div_le_div_iff₀ haQ hbQ]
    exact_mod_cast Iff.rfl
  unfold Frac.ble
  simp only [this]

/-- Addition of fractions is addition of values, for positive
denominators. -/
theorem Frac.toRat_add (a b : Frac) (ha : 0 < a.den) (hb : 0 < b.den) :
    (a.add b).toRat = a.toRat + b.toRat := by
  have haQ : (a.den : ℚ) ≠ 0 := by positivity
  have hbQ : (b.den : ℚ) ≠ 0 := by positivity
  unfold Frac.toRat Frac.add
  push_cast
  field_simp

/-- Negation of fractions is negation of values. -/
theorem Frac.toRat_neg (a : Frac) : a.neg.toRat = -a.toRat := by
  unfold Frac.toRat Frac.neg
  push_cast
  ring

/-- Halving of fractions is halving of values. -/
theorem Frac.toRat_half (a : Frac) : a.half.toRat = a.toRat / 2 := by
  unfold Frac.toRat Frac.half
  push_cast
  rw [div_div]

/-- Every dyadic fraction has a positive denominator. -/
theorem dyadic_den_pos (sgn : Int) (m : Nat) (e : Int) : 0 < (dyadic sgn m e).den := by
  unfold dyadic
  by_cases h : 0 ≤ e
  · rw [if_pos h]
    exact one_pos
  · rw [if_neg h]
    exact pow_pos (by norm_num) _

/-- Every finite binary64 value produced by rounding has a positive
denominator. -/
theorem floatOfPos_finite_den_pos (sgn : Int) (a b : Nat) (f : Frac)
    (h : floatOfPos sgn a b = .finite f) : 0 < f.den := by
  unfold floatOfPos at h
  dsimp only at h
  split at h
  · injection h with h1
    rw [← h1]
    exact one_pos
  · split at h
    · split at h
      · injection h with h1
        rw [← h1]
        exact one_pos
      · injection h with h1
        rw [← h1]
        exact dyadic_den_pos _ _ _
    · split at h
      · split at h
        · exact absurd h (by simp)
        · exact absurd h (by simp)
      · injection h with h1
        rw [← h1]
        exact dyadic_den_pos _ _ _

/-- Every finite value of a parsed decimal literal has a positive
denominator. -/
theorem decValue_den_pos (sgn : Int) (mant fracLen : Nat) (ex : Int) (f : Frac)
    (h : decValue sgn mant fracLen ex = .finite f) : 0 < f.den := by
  unfold decValue at h
  dsimp only at h
  split at h
  · exact floatOfPos_finite_den_pos _ _ _ _ h
  · exact floatOfPos_finite_den_pos _ _ _ _ h

/-- Every finite value produced by `parseDecimal` has a positive
denominator. -/
theorem parseDecimal_finite_den_pos (sgn : Int) (cs : Str) (f : Frac)
    (h : parseDecimal sgn cs = some (.finite f)) : 0 < f.den := by
  unfold parseDecimal at h
  dsimp only at h
  split at h
  · exact absurd h (by simp)
  · split at h
    · split at h
      · injection h with h1
        exact decValue_den_pos _ _ _ _ _ h1
      · exact absurd h (by simp)
    · split at h
      · injection h with h1
        exact decValue_den_pos _ _ _ _ _ h1
      · exact absurd h (by simp)

/-- Every finite value produced by `parseUnsigned` has a positive
denominator. -/
theorem parseUnsigned_finite_den_pos (sgn : Int) (cs : Str) (f : Frac)
    (h : parseUnsigned sgn cs = some (.finite f)) : 0 < f.den := by
  unfold parseUnsigned at h
  split at h
  · split at h
    · exact absurd h (by simp)
    · exact absurd h (by simp)
  · split at h
    · exact absurd h (by simp)
    · exact parseDecimal_finite_den_pos sgn cs f h

/-- Every finite value produced by `parseFloat` has a positive
denominator. -/
theorem parseFloat_finite_den_pos (cs : Str) (f : Frac)
    (h : parseFloat cs = some (.finite f)) : 0 < f.den := by
  unfold parseFloat at h
  split at h
  · exact parseUnsigned_finite_den_pos _ _ f h
  · exact parseUnsigned_finite_den_pos _ _ f h
  · exact parseUnsigned_finite_den_pos _ _ f h

/-- C1: for every line that satisfies all validity conditions (exactly 5
whitespace-separated tokens; first token an integer ≥ 0; tokens 2–5 parsing
as finite real numbers; width > 0; height > 0; center_x and center_y in
[0, 1]; and all four derived edges center ∓ extent/2 in [0, 1]), the Line
Validator returns no finding, for every line number and filename. -/
theorem C1_valid_line_no_finding
    (line : Str) (line_num : Nat) (filename : Str)
    (t0 t1 t2 t3 t4 : Str) (cid : Int) (cx cy w h : Frac)
    (htok : pySplit (pyStrip line) = [t0, t1, t2, t3, t4])
    (hcid : parseInt t0 = some cid) (hcid0 : 0 ≤ cid)
    (hcx : parseFloat t1 = some (.finite cx))
    (hcy : parseFloat t2 = some (.finite cy))
    (hwf : parseFloat t3 = some (.finite w))
    (hhf : parseFloat t4 = some (.finite h))
    (hwpos : 0 < w.toRat) (hhpos : 0 < h.toRat)
    (hcx0 : 0 ≤ cx.toRat) (hcx1 : cx.toRat ≤ 1)
    (hcy0 : 0 ≤ cy.toRat) (hcy1 : cy.toRat ≤ 1)
    (hxmin : 0 ≤ cx.toRat - w.toRat / 2) (hxmax : cx.toRat + w.toRat / 2 ≤ 1)
    (hymin : 0 ≤ cy.toRat - h.toRat / 2) (hymax : cy.toRat + h.toRat / 2 ≤ 1) :
    validate_yolo_line line line_num filename = none := by
  rw [validate_eq_core]
  suffices hc : lineCore line = none by rw [hc]; rfl
  have hnb : ¬ (pyStrip line).isEmpty = true := by
    intro hE
    rw [List.isEmpty_iff] at hE
    rw [hE] at htok
    exact absurd htok (by simp [pySplit, wordsAux])
  have dcx := parseFloat_finite_den_pos _ _ hcx
  have dcy := parseFloat_finite_den_pos _ _ hcy
  have dw := parseFloat_finite_den_pos _ _ hwf
  have dh := parseFloat_finite_den_pos _ _ hhf
  have d01 : 0 < (Frac.mk 0 1).den := one_pos
  have d11 : 0 < (Frac.mk 1 1).den := one_pos
  have dwh : 0 < w.half.neg.den := by
    rw [Frac.den_neg, Frac.den_half]; omega
  have dhh : 0 < h.half.neg.den := by
    rw [Frac.den_neg, Frac.den_half]; omega
  have dwh2 : 0 < w.half.den := by rw [Frac.den_half]; omega
  have dhh2 : 0 < h.half.den := by rw [Frac.den_half]; omega
  have cW : w.ble ⟨0, 1⟩ = false := by
    rw [Frac.ble_eq_toRat _ _ dw d01, Frac.toRat_zero]
    exact decide_eq_false (not_le.2 hwpos)
  have cH : h.ble ⟨0, 1⟩ = false := by
    rw [Frac.ble_eq_toRat _ _ dh d01, Frac.toRat_zero]
    exact decide_eq_false (not_le.2 hhpos)
  have cX0 : cx.blt ⟨0, 1⟩ = false := by
    rw [Frac.blt_eq_toRat _ _ dcx d01, Frac.toRat_zero]
    exact decide_eq_false (not_lt.2 hcx0)
  have cX1 : Frac.blt ⟨1, 1⟩ cx = false := by
    rw [Frac.blt_eq_toRat _ _ d11 dcx, Frac.toRat_one]
    exact decide_eq_false (not_lt.2 hcx1)
  have cY0 : cy.blt ⟨0, 1⟩ = false := by
    rw [Frac.blt_eq_toRat _ _ dcy d01, Frac.toRat_zero]
    exact decide_eq_false (not_lt.2 hcy0)
  have cY1 : Frac.blt ⟨1, 1⟩ cy = false := by
    rw [Frac.blt_eq_toRat _ _ d11 dcy, Frac.toRat_one]
    exact decide_eq_false (not_lt.2 hcy1)
  have eXmin : (cx.add w.half.neg).blt ⟨0, 1⟩ = false := by
    rw [Frac.blt_eq_toRat _ _ (by rw [Frac.den_add]; exact Nat.mul_pos dcx dwh) d01,
      Frac.toRat_add _ _ dcx dwh, Frac.toRat_neg, Frac.toRat_half, Frac.toRat_zero]
    exact decide_eq_false (not_lt.2 (by linarith))
  have eXmax : Frac.blt ⟨1, 1⟩ (cx.add w.half) = false := by
    rw [Frac.blt_eq_toRat _ _ d11 (by rw [Frac.den_add]; exact Nat.mul_pos dcx dwh2),
      Frac.toRat_add _ _ dcx dwh2, Frac.toRat_half, Frac.toRat_one]
    exact decide_eq_false (not_lt.2 (by linarith))
  have eYmin : (cy.add h.half.neg).blt ⟨0, 1⟩ = false := by
    rw [Frac.blt_eq_toRat _ _ (by rw [Frac.den_add]; exact Nat.mul_pos dcy dhh) d01,
      Frac.toRat_add _ _ dcy dhh, Frac.toRat_neg, Frac.toRat_half, Frac.toRat_zero]
    exact decide_eq_false (not_lt.2 (by linarith))
  have eYmax : Frac.blt ⟨1, 1⟩ (cy.add h.half) = false := by
    rw [Frac.blt_eq_toRat _ _ d11 (by rw [Frac.den_add]; exact Nat.mul_pos dcy dhh2),
      Frac.toRat_add _ _ dcy dhh2, Frac.toRat_half, Frac.toRat_one]
    exact decide_eq_false (not_lt.2 (by linarith))
  unfold lineCore
  rw [if_neg hnb, htok]
  dsimp only
  rw [hcid]
  dsimp only
  rw [if_neg (not_lt.2 hcid0), hcx]
  dsimp only
  rw [hcy]
  dsimp only
  rw [hwf]
  dsimp only
  rw [hhf]
  dsimp only
  simp only [PyFloat.isNan_finite, PyFloat.isInf_finite, PyFloat.sub_finite,
    PyFloat.add_finite, PyFloat.half_finite, pfZero, pfOne, PyFloat.ble_finite,
    PyFloat.blt_finite, PyFloat.neg, cW, cH, cX0, cX1, cY0, cY1, eXmin, eXmax,
    eYmin, eYmax, Bool.or_self, Bool.false_eq_true, if_false]

/-- C1 witness: the spec's own example of a valid line,
`0 0.5 0.5 0.2 0.2`. -/
theorem C1_valid_line_no_finding_witness :
    validate_yolo_line ("0 0.5 0.5 0.2 0.2".toList) 1 ("img_001.txt".toList) = none :=
  C1_valid_line_no_finding _ 1 _
    ("0".toList) ("0.5".toList) ("0.5".toList) ("0.2".toList) ("0.2".toList)
    0 ⟨4503599627370496, 9007199254740992⟩ ⟨4503599627370496, 9007199254740992⟩
    ⟨7205759403792794, 36028797018963968⟩ ⟨7205759403792794, 36028797018963968⟩
    (by decide) (by decide) (by decide)
    (by decide) (by decide) (by decide) (by decide)
    (by norm_num [Frac.toRat]) (by norm_num [Frac.toRat])
    (by norm_num [Frac.toRat]) (by norm_num [Frac.toRat])
    (by norm_num [Frac.toRat]) (by norm_num [Frac.toRat])
    (by norm_num [Frac.toRat]) (by norm_num [Frac.toRat])
    (by norm_num [Frac.toRat]) (by norm_num [Frac.toRat])

/-- C2: for every non-blank line the Line Validator produces at most one
Finding (it returns an `Option`), and that Finding reports exactly the first
violated check of the fixed documented sequence — token count, class id,
float parses in order, NaN/infinity per value, width > 0, height > 0,
center_x range, center_y range, then the edges x_min, x_max, y_min, y_max —
with later checks unable to influence the result (`List.findSome?` returns
the first hit of the independent per-check functions). -/
theorem C2_first_violated_check (line : Str) (n : Nat) (f : Str) :
    validate_yolo_line line n f =
      (specFirstViolation line).map
        (fun r => LabelValidationError.make f n (pyStrip line) r) := by
  rw [validate_eq_core, lineCore_eq_spec]

/-- C10: the verdict of `validate_yolo_line` is a function of the line text
alone — calling it with any other line number and filename gives the same
verdict, the same reason and the same offending text, with only the recorded
filename and line number replaced. -/
theorem C10_verdict_depends_only_on_text
    (line : Str) (n₁ : Nat) (f₁ : Str) (n₂ : Nat) (f₂ : Str) :
    validate_yolo_line line n₁ f₁ =
      (validate_yolo_line line n₂ f₂).map
        (fun e => { e with filename := f₁, line_num := n₁ }) := by
  rw [validate_eq_core, validate_eq_core]
  cases lineCore line
  · rfl
  · rfl

/-- C3 counterexample: on the line `0 0.5 0.5 1.2 0.2` the Line Validator
does not report the right edge at all (the reported reason is a left-edge
violation, since x_min = 0.5 − 0.6 = −0.1 < 0 is checked first). -/
theorem C3_right_edge_counterexample :
    (validate_yolo_line ("0 0.5 0.5 1.2 0.2".toList) 1 ("labels.txt".toList)).map
        (fun e =>
          match e.reason with
          | Reason.exceedsRight _ => true
          | _ => false) = some false := by
  decide

/-- C3 amended: on the line `0 0.5 0.5 1.2 0.2` (at any line number and in
any file) the Line Validator reports the box exceeding the LEFT edge, not
the right edge: x_min is the binary64 value 0.5 − 0.6 =
−900719925474099/2^53 ≈ −0.09999999999999998, which the message renders as
−0.100000 at its 6-decimal precision (it lies within 10^-6/2 of −0.1); the
right-edge check (which would find x_max ≈ 1.1) is never reached because the
left-edge check precedes it in the fixed order. -/
theorem C3_reports_left_edge (n : Nat) (f : Str) :
    ∃ xm : Frac,
      validate_yolo_line ("0 0.5 0.5 1.2 0.2".toList) n f =
        some ⟨f, n, "0 0.5 0.5 1.2 0.2".toList, .exceedsLeft (.finite xm)⟩ ∧
      xm.toRat = -(900719925474099 / 9007199254740992) ∧
      -(1 / 10) - 1 / 2000000 < xm.toRat ∧ xm.toRat < -(1 / 10) + 1 / 2000000 := by
  refine ⟨⟨-900719925474099 * 9007199254740992,
      9007199254740992 * 9007199254740992⟩, ?_, ?_, ?_, ?_⟩
  · rfl
  · norm_num [Frac.toRat]
  · norm_num [Frac.toRat]
  · norm_num [Frac.toRat]

/-- A Finding returned by the Line Validator is the core reason packaged
with the call's filename and line number and the stripped line text. -/
theorem validate_some_shape (line : Str) (n : Nat) (f : Str) (e : LabelValidationError)
    (h : validate_yolo_line line n f = some e) :
    ∃ r, lineCore line = some r ∧ e = LabelValidationError.make f n (pyStrip line) r := by
  rw [validate_eq_core] at h
  rcases hc : lineCore line with _ | r
  · rw [hc] at h
    exact absurd h (by simp)
  · rw [hc] at h
    exact ⟨r, rfl, by injection h with h1; exact h1.symm⟩

/-- Every Finding of a successfully-read file comes from some 1-based line
position of the file. -/
theorem mem_validate_label_file_ok (fn : Str) (lines : List Str) (e : LabelValidationError)
    (h : e ∈ validate_label_file fn (.ok lines)) :
    ∃ i l, 1 ≤ i ∧ lines[i - 1]? = some l ∧ validate_yolo_line l i fn = some e := by
  unfold validate_label_file at h
  dsimp only at h
  by_cases hemp : lines.isEmpty = true
  · rw [if_pos hemp] at h
    exact absurd h (by simp)
  · rw [if_neg hemp] at h
    obtain ⟨p, hp, hv⟩ := List.mem_filterMap.mp h
    rcases p with ⟨i, l⟩
    obtain ⟨hle, hget⟩ := List.mk_mem_enumFrom_iff_le_and_getElem?_sub.mp hp
    exact ⟨i, l, hle, hget, hv⟩

/-- C4: every Finding constructed by the Line Validator or the File
Validator satisfies the Finding invariant: line number 0 carries empty
offending text, and line number ≥ 1 carries non-empty offending text equal
to the original line at that 1-based position with surrounding whitespace
removed. -/
theorem C4_finding_invariant (fn : Str) (r : ReadResult) (e : LabelValidationError)
    (he : e ∈ validate_label_file fn r) :
    (e.line_num = 0 → e.line_content = []) ∧
    (1 ≤ e.line_num → e.line_content ≠ [] ∧
      ∃ lines l, r = .ok lines ∧ lines[e.line_num - 1]? = some l ∧
        e.line_content = pyStrip l) := by
  rcases r with lines | _ | msg
  · obtain ⟨i, l, hi, hget, hval⟩ := mem_validate_label_file_ok fn lines e he
    obtain ⟨rr, hcore, hshape⟩ := validate_some_shape l i fn e hval
    subst hshape
    unfold LabelValidationError.make
    dsimp only
    rw [pyStrip_idem]
    constructor
    · intro h0
      omega
    · intro _
      exact ⟨lineCore_some_nonblank l rr hcore, lines, l, rfl, hget, rfl⟩
  · have : e = LabelValidationError.make fn 0 [] .encodingError := by
      simpa [validate_label_file] using he
    subst this
    exact ⟨fun _ => rfl, fun h1 => absurd h1 (by simp [LabelValidationError.make])⟩
  · have : e = LabelValidationError.make fn 0 [] (.readError msg) := by
      simpa [validate_label_file] using he
    subst this
    exact ⟨fun _ => rfl, fun h1 => absurd h1 (by simp [LabelValidationError.make])⟩

/-- C4 witness: the Finding produced by a malformed line in a one-line file
satisfies the invariant. -/
theorem C4_finding_invariant_witness :
    ((⟨"a.txt".toList, 1, "0 0.5 0.5 0.2".toList, .wrongCount 4⟩ :
        LabelValidationError).line_num = 0 →
      (⟨"a.txt".toList, 1, "0 0.5 0.5 0.2".toList, .wrongCount 4⟩ :
        LabelValidationError).line_content = []) ∧
    (1 ≤ (⟨"a.txt".toList, 1, "0 0.5 0.5 0.2".toList, .wrongCount 4⟩ :
        LabelValidationError).line_num →
      (⟨"a.txt".toList, 1, "0 0.5 0.5 0.2".toList, .wrongCount 4⟩ :
        LabelValidationError).line_content ≠ [] ∧
      ∃ lines l, (ReadResult.ok ["0 0.5 0.5 0.2\n".toList]) = .ok lines ∧
        lines[(⟨"a.txt".toList, 1, "0 0.5 0.5 0.2".toList, .wrongCount 4⟩ :
          LabelValidationError).line_num - 1]? = some l ∧
        (⟨"a.txt".toList, 1, "0 0.5 0.5 0.2".toList, .wrongCount 4⟩ :
          LabelValidationError).line_content = pyStrip l) :=
  C4_finding_invariant ("a.txt".toList) (.ok ["0 0.5 0.5 0.2\n".toList]) _ (by decide)

/-- C7: a file made of one blank line, one valid line and one invalid line
yields exactly one Finding, at line number 3; blank and whitespace-only
lines yield no finding at any position; and every Finding's line number is
the original 1-based position of its line, counting blank lines. -/
theorem C7_line_numbering :
    (∀ fn, validate_label_file fn
        (.ok ["\n".toList, "0 0.5 0.5 0.2 0.2\n".toList, "0 0.5 0.5 0 0.2\n".toList]) =
      [⟨fn, 3, "0 0.5 0.5 0 0.2".toList, .widthNotPositive (.finite ⟨0, 1⟩)⟩]) ∧
    (∀ line n fn, pyStrip line = [] → validate_yolo_line line n fn = none) ∧
    (∀ fn lines e, e ∈ validate_label_file fn (.ok lines) →
      1 ≤ e.line_num ∧ ∃ l, lines[e.line_num - 1]? = some l ∧
        validate_yolo_line l e.line_num fn = some e) := by
  refine ⟨fun fn => rfl, fun line n fn h => ?_, fun fn lines e he => ?_⟩
  · unfold validate_yolo_line
    rw [if_pos (by simp [h])]
  · obtain ⟨i, l, hi, hget, hval⟩ := mem_validate_label_file_ok fn lines e he
    obtain ⟨rr, hcore, hshape⟩ := validate_some_shape l i fn e hval
    have hnum : e.line_num = i := by rw [hshape]; rfl
    rw [hnum]
    exact ⟨hi, l, hget, hval⟩

/-- C7 witness: a whitespace-only line at position 7 yields no finding, and
the single Finding of the three-line file sits at its original position. -/
theorem C7_line_numbering_witness :
    validate_yolo_line ("  ".toList) 7 ("w.txt".toList) = none ∧
    (1 ≤ (⟨"w.txt".toList, 3, "0 0.5 0.5 0 0.2".toList,
        .widthNotPositive (.finite ⟨0, 1⟩)⟩ : LabelValidationError).line_num ∧
      ∃ l, (["\n".toList, "0 0.5 0.5 0.2 0.2\n".toList, "0 0.5 0.5 0 0.2\n".toList] :
          List Str)[(⟨"w.txt".toList, 3, "0 0.5 0.5 0 0.2".toList,
            .widthNotPositive (.finite ⟨0, 1⟩)⟩ : LabelValidationError).line_num - 1]? =
          some l ∧
        validate_yolo_line l (⟨"w.txt".toList, 3, "0 0.5 0.5 0 0.2".toList,
          .widthNotPositive (.finite ⟨0, 1⟩)⟩ : LabelValidationError).line_num
          ("w.txt".toList) =
          some ⟨"w.txt".toList, 3, "0 0.5 0.5 0 0.2".toList,
            .widthNotPositive (.finite ⟨0, 1⟩)⟩) :=
  ⟨C7_line_numbering.2.1 ("  ".toList) 7 ("w.txt".toList) (by decide),
   C7_line_numbering.2.2 ("w.txt".toList)
     ["\n".toList, "0 0.5 0.5 0.2 0.2\n".toList, "0 0.5 0.5 0 0.2\n".toList] _ (by decide)⟩

/-- The files of an optional partition directory (an absent directory
contributes none). -/
def dirFiles : Option LabelDir → List (Str × ReadResult)
  | none => []
  | some d => d.files

/-- All files the Scanner visits, in visit order: train partition then val
partition. -/
def datasetFiles (ds : Dataset) : List (Str × ReadResult) :=
  dirFiles ds.train ++ dirFiles ds.val

/-- Folding the per-file loop body accumulates, in order: all findings, the
file count, and the line count. -/
theorem foldl_processFile (files : List (Str × ReadResult)) (acc : ScanResult) :
    files.foldl processFile acc =
      ⟨acc.errors ++ files.flatMap (fun p => validate_label_file p.1 p.2),
       acc.total_files + files.length,
       acc.total_lines + (files.map (fun p => countNonBlankLines p.2)).sum⟩ := by
  induction files generalizing acc with
  | nil => simp
  | cons p ps ih =>
    rw [List.foldl_cons, ih]
    simp only [processFile, List.flatMap_cons, List.map_cons, List.sum_cons,
      List.length_cons, List.append_assoc]
    congr 1
    · omega
    · omega

/-- The Scanner's result in closed form: findings are the concatenation of
each visited file's findings, the file count is the number of visited files,
and the line count sums the per-file non-blank line counts. -/
theorem scan_dataset_eq (ds : Dataset) :
    scan_dataset ds =
      ⟨(datasetFiles ds).flatMap (fun p => validate_label_file p.1 p.2),
       (datasetFiles ds).length,
       ((datasetFiles ds).map (fun p => countNonBlankLines p.2)).sum⟩ := by
  unfold scan_dataset datasetFiles dirFiles
  rcases ds with ⟨tr, va⟩
  rcases tr with _ | td <;> rcases va with _ | vd <;>
    simp [processSplit, foldl_processFile]

/-- C5: the process exits 0 iff the dataset root exists and the scan produced
zero Findings, and exits 1 iff the root is missing or at least one Finding
was produced. -/
theorem C5_exit_code (root_exists : Bool) (ds : Dataset) :
    (mainExitCode root_exists ds = 0 ↔
      (root_exists = true ∧ (scan_dataset ds).errors = [])) ∧
    (mainExitCode root_exists ds = 1 ↔
      (root_exists = false ∨ (scan_dataset ds).errors ≠ [])) := by
  unfold mainExitCode
  cases root_exists
  · simp
  · rcases h : (scan_dataset ds).errors with _ | ⟨e, es⟩ <;> simp [h]

/-- C6: an undecodable file produces exactly the one file-level Finding
(line 0, empty text, the encoding-error reason), any other failed read
produces exactly the one file-level Finding carrying the underlying message,
no per-line validation happens for such files, and the Scanner's findings
are the concatenation over all visited files — so a failed file never stops
the scan of subsequent files. -/
theorem C6_file_level_failures :
    (∀ fn, validate_label_file fn .unicodeDecodeError =
      [⟨fn, 0, [], .encodingError⟩]) ∧
    (∀ fn msg, validate_label_file fn (.otherError msg) =
      [⟨fn, 0, [], .readError msg⟩]) ∧
    (∀ ds, (scan_dataset ds).errors =
      (datasetFiles ds).flatMap (fun p => validate_label_file p.1 p.2)) :=
  ⟨fun _ => rfl, fun _ _ => rfl, fun ds => by rw [scan_dataset_eq]⟩

/-- C8: a dataset root with neither partition directory yields 0 files, 0
lines, no Findings and exit code 0; and a missing partition directory
behaves exactly like a present empty one (a warning only, never a
Finding). -/
theorem C8_missing_partitions :
    scan_dataset ⟨none, none⟩ = ⟨[], 0, 0⟩ ∧
    mainExitCode true ⟨none, none⟩ = 0 ∧
    (∀ d, scan_dataset ⟨none, d⟩ = scan_dataset ⟨some ⟨[]⟩, d⟩ ∧
      scan_dataset ⟨d, none⟩ = scan_dataset ⟨d, some ⟨[]⟩⟩) :=
  ⟨rfl, rfl, fun _ => ⟨rfl, rfl⟩⟩

/-- C9: the Scanner's line-count statistic is the sum, over exactly the
visited files, of the number of non-blank lines of each successfully-read
file, with failed reads contributing 0; validity of the lines plays no
role. -/
theorem C9_line_count (ds : Dataset) :
    (scan_dataset ds).total_lines =
      ((datasetFiles ds).map (fun p => countNonBlankLines p.2)).sum := by
  rw [scan_dataset_eq]
